import Mathlib

/-!
Verification of the nyooom reactive-state core (`src/observable.js`).

The development shallowly embeds the parts of `observable.js` the claims
touch: the `Observable` container with its pre-commit `ChangeEvent`,
change queue, microtask-batched `ChangedEvent` flush, per-property
promises and memoized `PropertyState`s, and the `State` family
(`WriteableState`, `ComputedState`) with its dirty/clean/orphaned
lifecycle.  JS values are modelled by an explicit inductive type,
JS objects by insertion-ordered association lists, and the event-loop
tick by an explicit driver that performs a list of synchronous writes
and then runs the scheduled microtask flush.
-/

namespace Nyooom

/-- Model of the JS values that flow through the observable core.
`undef` is the JS value `undefined`; numbers are modelled as integers
(the scenarios in the spec only use integers). -/
inductive JSVal where
  | undef
  | num (n : Int)
  | str (s : String)
  | boolean (b : Bool)
  deriving DecidableEq, Repr

/-- Identity of the actor recorded in a Change record (`source`).
`valuesProxy` is the `values` proxy receiver, `propState p` the memoized
`PropertyState` for property `p` (unique per property because `property()`
memoizes), `observableSrc` the observable itself (passed as `this` by
`emit` to `notifyChange`). -/
inductive Source where
  | undef
  | valuesProxy
  | propState (property : String)
  | observableSrc
  | other (n : Nat)
  deriving DecidableEq, Repr

/-- Change record: `{property, from, to, mutation, source}`.  The JS field
`from` is a Lean keyword and is rendered `from_`. -/
structure Change where
  property : String
  from_ : JSVal
  to_ : JSVal
  mutation : Bool
  source : Source
  deriving DecidableEq, Repr

/-- Reading `target[property]`: a missing property reads as `undefined`. -/
def lookupJS (target : List (String × JSVal)) (property : String) : JSVal :=
  (target.lookup property).getD JSVal.undef

/-- Assignment `target[property] = value` on a JS object: an existing key
is updated in place, a fresh key is appended (JS string-key insertion
order). -/
def storeJS : List (String × JSVal) → String → JSVal → List (String × JSVal)
  | [], p, v => [(p, v)]
  | (q, w) :: rest, p, v =>
      if q = p then (p, v) :: rest else (q, w) :: storeJS rest p v

/-- State of one `Observable` (`src/observable.js` lines 61-295).
`target` is the backing store, `queue` the pending `#queue` of Change
records, `microTaskQueued` the `#microTaskQueued` flag, `states` the keys
of the memoized `#states` map (one `PropertyState` per key), `promises`
the pending `#promises` map rendered as property to promise id, and
`same` the pluggable equality predicate (default `(a, b) => a === b`).
Child tracking (`children: true`) is not modelled: every value here is a
scalar, never a nested `Observable`, so the `adopt`/`disown` branch of
`set` is a no-op on such values. -/
structure Observable where
  same : JSVal → JSVal → Bool
  target : List (String × JSVal)
  queue : List Change
  microTaskQueued : Bool
  states : List String
  promises : List (String × Nat)
  nextPromiseId : Nat

/-- A fresh `new Observable(target)` with the default equality
`same(a, b) { return a === b }`. -/
def Observable.start (target : List (String × JSVal)) : Observable :=
  { same := fun a b => decide (a = b)
    target := target
    queue := []
    microTaskQueued := false
    states := []
    promises := []
    nextPromiseId := 0 }

/-- Queues up a change (`enqueue`, lines 148-161).  `precommit` models
`dispatchEvent(new ChangeEvent(change))`: it returns `false` exactly when
a `"change"` listener canceled the event.  On acceptance the flush
microtask is scheduled (flag set) and the change is pushed. -/
def Observable.enqueue (precommit : Change → Bool) (o : Observable)
    (change : Change) : Observable × Bool :=
  if precommit change then
    ({o with microTaskQueued := true, queue := o.queue ++ [change]}, true)
  else
    (o, false)

/-- The `set(property, value, source)` method (lines 122-141): compare
old and new under `same`; when different, dispatch the cancelable
pre-commit event via `enqueue` and, if accepted, commit the value.
The `console.warn` diagnostic for an undefined source has no effect on
state and is not modelled. -/
def Observable.set (precommit : Change → Bool) (o : Observable)
    (property : String) (value : JSVal) (source : Source) :
    Observable × Bool :=
  let old := lookupJS o.target property
  if o.same old value then
    (o, true)
  else
    match o.enqueue precommit ⟨property, old, value, false, source⟩ with
    | (o1, true) => ({o1 with target := storeJS o1.target property value}, true)
    | (o1, false) => (o1, false)

/-- Default `consolidate(changes)` hook (lines 206-208): the identity. -/
def Observable.consolidate (changes : List Change) : List Change :=
  changes

/-- One call `state.notifyChange(this)` performed by `emit`: the
`StateChangedEvent` dispatched on the memoized `PropertyState`, carrying
the state value (which delegates to the observable target) and the
observable as `source`. -/
structure StateNotification where
  property : String
  value : JSVal
  source : Source
  deriving DecidableEq, Repr

/-- Observable effects of one `ChangedEvent` flush: the change list the
event was constructed with, the `notifyChange` calls made on memoized
property states (in order), and the promise callbacks invoked (property
and the value passed to the callback, in order). -/
structure EmitResult where
  event : List Change
  notified : List StateNotification
  resolved : List (String × JSVal)
  deriving DecidableEq, Repr

/-- The flush `emitQueue` (lines 211-217) together with `emit`
(lines 167-197).  `onChanged` models what the `"changed"` listeners
enqueue synchronously during `dispatchEvent`: those changes are pushed
onto the same live `#queue` array that the default `consolidate` just
returned, so the post-dispatch scan of `emit` iterates them as well,
and `queue.length = 0` afterwards erases them.  The `ChangedEvent`
itself is built by spreading the array before listeners run, so it
carries only the pre-flush slice.  `lastForStates` / `lastForPromises`
are the insertion-ordered objects of lines 172-185; the scan is guarded
by `#states.size || #promises.size` as in line 171. -/
def Observable.emitQueue (onChanged : List Change → List Change)
    (o : Observable) : Observable × List EmitResult :=
  if o.queue = [] then
    (o, [])
  else
    let slice := Observable.consolidate o.queue
    let extra := onChanged slice
    let live := slice ++ extra
    if o.states = [] ∧ o.promises = [] then
      ({o with queue := [], microTaskQueued := o.microTaskQueued || !extra.isEmpty},
       [⟨slice, [], []⟩])
    else
      let lastForStates := live.foldl (fun acc c =>
        if c.property ∈ o.states then storeJS acc c.property c.to_ else acc) []
      let lastForPromises := live.foldl (fun acc c =>
        if (o.promises.lookup c.property).isSome then storeJS acc c.property c.to_ else acc) []
      let notified := lastForStates.map (fun kv =>
        StateNotification.mk kv.1 (lookupJS o.target kv.1) Source.observableSrc)
      ({o with queue := [],
               promises := o.promises.filter (fun pv => (lastForPromises.lookup pv.1).isNone),
               microTaskQueued := o.microTaskQueued || !extra.isEmpty},
       [⟨slice, notified, lastForPromises⟩])

/-- Field table of the cache entry `{promise, callback}` stored in the
`#promises` map, keyed by property name; both fields are identified by
the promise id. -/
def promiseEntryFields (pid : Nat) : List (String × Nat) :=
  [("promise", pid), ("callback", pid)]

/-- The `when(property)` method (lines 270-280).  The returned
`Option Nat` is the JS return value: `some pid` is the promise with id
`pid`, `none` is `undefined`.  On a cache hit the source returns
`cached[0]`, a property access with key `"0"` on the stored object
`{promise, callback}` — which has no such key. -/
def Observable.when (o : Observable) (property : String) :
    Observable × Option Nat :=
  match o.promises.lookup property with
  | some pid => (o, (promiseEntryFields pid).lookup "0")
  | none =>
      let promise := o.nextPromiseId
      ({o with promises := o.promises ++ [(property, promise)],
               nextPromiseId := promise + 1},
       some promise)

/-- The `property(property)` method (lines 286-294), restricted to its
effect on the `#states` map: the first call memoizes a `PropertyState`
for the key, later calls return the cached instance. -/
def Observable.property (o : Observable) (property : String) : Observable :=
  if property ∈ o.states then o else {o with states := o.states ++ [property]}

/-- The `PropertyState.update(value)` method (lines 448-456): a
non-read-only property state writes through `observable.set`, tagging
itself as the change source; a read-only one throws a `TypeError`. -/
def PropertyState.update (readonly : Bool) (precommit : Change → Bool)
    (o : Observable) (property : String) (value : JSVal) :
    Except String (Observable × Bool) :=
  if readonly then
    Except.error "Attempting to update a read-only state"
  else
    Except.ok (Observable.set precommit o property value (Source.propState property))

/-- One synchronous write `observable.values[property] = value` (or an
explicit `set`) issued during a tick. -/
structure WriteOp where
  property : String
  value : JSVal
  source : Source
  deriving DecidableEq, Repr

/-- Performs a list of synchronous writes in order. -/
def runWrites (precommit : Change → Bool) :
    Observable → List WriteOp → Observable
  | o, [] => o
  | o, w :: ws =>
      runWrites precommit (Observable.set precommit o w.property w.value w.source).1 ws

/-- One event-loop tick: the synchronous writes run first; then, if a
flush microtask was scheduled, it runs — the callback clears
`#microTaskQueued` and calls `emitQueue` (lines 151-156). -/
def runTick (precommit : Change → Bool) (onChanged : List Change → List Change)
    (o : Observable) (ws : List WriteOp) : Observable × List EmitResult :=
  let o1 := runWrites precommit o ws
  if o1.microTaskQueued then
    Observable.emitQueue onChanged {o1 with microTaskQueued := false}
  else
    (o1, [])

/-- Entry of the `changesByProperty` view: the rest of a Change record
after destructuring the property away (`const {property, ...change}`,
line 42). -/
structure ChangeView where
  from_ : JSVal
  to_ : JSVal
  mutation : Bool
  source : Source
  deriving DecidableEq, Repr

/-- The `ChangedEvent.changesByProperty` getter (lines 38-52): groups the
change records of the event by property into an insertion-ordered map of
lists, pushing each record onto its property bucket in event order. -/
def changesByProperty (changes : List Change) :
    List (String × List ChangeView) :=
  changes.foldl (fun properties c =>
    let view : ChangeView := ⟨c.from_, c.to_, c.mutation, c.source⟩
    if (properties.lookup c.property).isSome then
      properties.map (fun kv =>
        if kv.1 = c.property then (kv.1, kv.2 ++ [view]) else kv)
    else
      properties ++ [(c.property, [view])]) []

/-- Lifecycle tag of a `State` (lines 313-315): the symbols
`State.dirty`, `State.clean`, `State.orphaned`. -/
inductive StateTag where
  | dirty
  | clean
  | orphaned
  deriving DecidableEq, Repr

/-- Mutable core of a `ComputedState` (lines 476-561).  `values` is the
`#values` cache of last-seen input values (`new Array(n)`: every slot
reads `undefined` before first use), `lastValue` the slot `this[valueKey]`
(`undefined` before the first recompute), `tag` the `#state` lifecycle
tag (initially dirty), and `fnCount` counts the invocations of the
stored compute function `#fn`. -/
structure ComputedState where
  values : List JSVal
  lastValue : JSVal
  tag : StateTag
  fnCount : Nat
  deriving DecidableEq, Repr

/-- A freshly constructed `ComputedState` over `n` inputs: cache of `n`
undefined slots, no computed value yet, dirty, compute function never
invoked. -/
def ComputedState.start (n : Nat) : ComputedState :=
  ⟨List.replicate n JSVal.undef, JSVal.undef, StateTag.dirty, 0⟩

/-- The `updateValues` method (lines 549-560).  Each input is given as
the result of dereferencing its weak ref: `none` for a collected input
(skipped), `some v` for a live input whose current `value` is `v`.  A
live value different from the cached one replaces it and marks the pull
as changed. -/
def updateValues : List (Option JSVal) → List JSVal → List JSVal × Bool
  | [], values => (values, false)
  | _ :: _, [] => ([], false)
  | input :: inputs, v :: values =>
      let rest := updateValues inputs values
      match input with
      | some value =>
          if value ≠ v then (value :: rest.1, true)
          else (v :: rest.1, rest.2)
      | none => (v :: rest.1, rest.2)

/-- The `value` getter of `ComputedState` (lines 539-547): when the state
is not clean, pull the inputs; if any live input changed, recompute via
`fn` on the full updated cache; in either case become clean; return the
stored value. -/
def ComputedState.value (fn : List JSVal → JSVal)
    (inputs : List (Option JSVal)) (c : ComputedState) :
    ComputedState × JSVal :=
  if c.tag ≠ StateTag.clean then
    let pulled := updateValues inputs c.values
    let c1 :=
      if pulled.2 then
        {c with values := pulled.1, lastValue := fn pulled.1,
                fnCount := c.fnCount + 1, tag := StateTag.clean}
      else
        {c with values := pulled.1, tag := StateTag.clean}
    (c1, c1.lastValue)
  else
    (c, c.lastValue)

/-- The `setDirty` handler (lines 531-535) run when an upstream input
dispatches `changed`: flip the tag to dirty (the accompanying
`notifyChange` only informs downstream listeners). -/
def ComputedState.setDirty (c : ComputedState) : ComputedState :=
  {c with tag := StateTag.dirty}

/-- The scenario system of the spec: `x = State.value(2)`,
`y = State.value(3)` (two `WriteableState`s) and
`sum = State.compute((a, b) => a + b)(x, y)`. -/
structure SumSystem where
  x : JSVal
  y : JSVal
  sum : ComputedState
  deriving DecidableEq, Repr

/-- JS addition `(a, b) => a + b` restricted to the values the scenario
produces; any non-numeric operand yields a non-number (NaN and string
coercion do not occur in the scenario). -/
def jsAdd : JSVal → JSVal → JSVal
  | JSVal.num a, JSVal.num b => JSVal.num (a + b)
  | _, _ => JSVal.undef

/-- The compute function of the scenario applied to the cached input
tuple in positional order. -/
def sumFn (values : List JSVal) : JSVal :=
  jsAdd (values.getD 0 JSVal.undef) (values.getD 1 JSVal.undef)

/-- Operations the scenario driver can perform: read `sum.value`, or
write `x.value` / `y.value`. -/
inductive SumOp where
  | readSum
  | writeX (v : JSVal)
  | writeY (v : JSVal)
  deriving DecidableEq, Repr

/-- One step of the scenario.  A write runs `WriteableState.update`
(lines 400-405): only a value different by identity is stored and
notifies; the notification runs the `changed` callback the
`ComputedState` constructor registered, which calls `setDirty`
(lines 499-502).  A read runs the `value` getter with both inputs
alive. -/
def stepSum (s : SumSystem) : SumOp → SumSystem
  | SumOp.readSum =>
      {s with sum := (ComputedState.value sumFn [some s.x, some s.y] s.sum).1}
  | SumOp.writeX v =>
      if v ≠ s.x then {s with x := v, sum := s.sum.setDirty} else s
  | SumOp.writeY v =>
      if v ≠ s.y then {s with y := v, sum := s.sum.setDirty} else s

/-- Runs a list of scenario operations in order. -/
def runSum (s : SumSystem) (ops : List SumOp) : SumSystem :=
  ops.foldl stepSum s

/-- The value produced by reading `sum.value` in a scenario state. -/
def readSumValue (s : SumSystem) : JSVal :=
  (ComputedState.value sumFn [some s.x, some s.y] s.sum).2

/-- Initial scenario state: `x.value = 2`, `y.value = 3`, `sum` freshly
constructed over the two inputs. -/
def sumStart : SumSystem :=
  ⟨JSVal.num 2, JSVal.num 3, ComputedState.start 2⟩

/-- Orphan-tracking view of a `ComputedState`: for each upstream ref of
`#inputs`, whether `deref()` still resolves, together with the lifecycle
tag and a count of the `orphaned` events dispatched. -/
structure OrphanState where
  inputs : List Bool
  tag : StateTag
  orphanedEvents : Nat
  deriving DecidableEq, Repr

/-- The `checkOrphaned` method (lines 520-529): return false at the first
upstream ref that still resolves; otherwise flip to orphaned, dispatch an
`orphaned` event, and return true.  There is no guard against running
again on an already-orphaned state. -/
def checkOrphaned (c : OrphanState) : OrphanState × Bool :=
  if c.inputs.any id then
    (c, false)
  else
    ({c with tag := StateTag.orphaned, orphanedEvents := c.orphanedEvents + 1}, true)

/-- Host events driving orphan detection for plain `State` inputs:
`collect i` is the garbage collector clearing the `WeakRef` of input `i`
(its `deref()` stops resolving); `abortFired i` is the later run of the
`abort` listener registered on that input's `collectedSignal`
(lines 511-515), which calls `this.checkOrphaned()`. -/
inductive GCEvent where
  | collect (i : Nat)
  | abortFired (i : Nat)
  deriving DecidableEq, Repr

/-- Applies one host event to the orphan-tracking state. -/
def applyGCEvent (c : OrphanState) : GCEvent → OrphanState
  | GCEvent.collect i => {c with inputs := c.inputs.set i false}
  | GCEvent.abortFired _ => (checkOrphaned c).1

/-- Runs a sequence of host events in order. -/
def runGC (c : OrphanState) (events : List GCEvent) : OrphanState :=
  events.foldl applyGCEvent c

/-- Host guarantees for a trace over `n` plain `State` inputs: each index
is in range, an input is collected at most once, and its abort listener
fires at most once and only after the collection (finalization callbacks
run after the collector has cleared the weak refs). -/
def admissibleGCFrom (n : Nat) (collected fired : List Nat) :
    List GCEvent → Bool
  | [] => true
  | GCEvent.collect i :: rest =>
      decide (i < n) && !(collected.contains i) &&
        admissibleGCFrom n (i :: collected) fired rest
  | GCEvent.abortFired i :: rest =>
      collected.contains i && !(fired.contains i) &&
        admissibleGCFrom n collected (i :: fired) rest

/-- Admissibility of a full trace, starting with nothing collected. -/
def admissibleGC (n : Nat) (events : List GCEvent) : Bool :=
  admissibleGCFrom n [] [] events

/-- The Change record that `set` builds for a write issued against the
observable `o`: `from` is the value stored at the time of the write. -/
def writeChange (o : Observable) (w : WriteOp) : Change :=
  ⟨w.property, lookupJS o.target w.property, w.value, false, w.source⟩

/-- Round-trip scenario: an observable with `target = {p: 1}` whose
`property("p")` state is memoized. -/
def roundTripObservable : Observable :=
  Observable.property (Observable.start [("p", JSVal.num 1)]) "p"

/-- The write `o.property("p").value = 5` of the round-trip scenario,
with no cancelling listener. -/
def roundTripWrite : Except String (Observable × Bool) :=
  PropertyState.update false (fun _ => true) roundTripObservable "p" (JSVal.num 5)

/-- The flush microtask at the end of the round-trip tick. -/
def roundTripTick : Observable × List EmitResult :=
  match roundTripWrite with
  | Except.ok (o, _) =>
      if o.microTaskQueued then
        Observable.emitQueue (fun _ => []) {o with microTaskQueued := false}
      else (o, [])
  | Except.error _ => (roundTripObservable, [])

/-- A change some `"changed"` listener enqueues synchronously while the
flush is dispatching. -/
def listenerChange : Change :=
  ⟨"b", JSVal.undef, JSVal.num 2, false, Source.other 0⟩

/-- An observable about to flush a single queued change. -/
def flushVictim : Observable :=
  {Observable.start [] with
    queue := [⟨"a", JSVal.undef, JSVal.num 1, false, Source.valuesProxy⟩]}

/-- Host trace for two plain `State` inputs that the collector reclaims
in the same cycle, before either finalization-driven abort listener has
run. -/
def doubleOrphanTrace : List GCEvent :=
  [GCEvent.collect 0, GCEvent.collect 1, GCEvent.abortFired 0, GCEvent.abortFired 1]

/-! Helper lemmas shared by several claims. -/

lemma lookupJS_storeJS_ne (t : List (String × JSVal)) (p q : String)
    (v : JSVal) (h : q ≠ p) : lookupJS (storeJS t p v) q = lookupJS t q := by
  have hqp : (q == p) = false := beq_eq_false_iff_ne.mpr h
  induction t with
  | nil => simp [storeJS, lookupJS, List.lookup, hqp]
  | cons kv rest ih =>
      obtain ⟨k, w⟩ := kv
      by_cases hk : k = p
      · subst hk
        simp [storeJS, lookupJS, List.lookup, hqp]
      · simp only [storeJS, if_neg hk]
        by_cases hq : k = q
        · subst hq
          simp [lookupJS, List.lookup]
        · simp only [lookupJS, List.lookup] at ih ⊢
          have hbeq : (q == k) = false := by
            simp [beq_eq_false_iff_ne, Ne.symm hq]
          simp [hbeq, ih]

lemma emitQueue_queue_empty (onChanged : List Change → List Change)
    (o : Observable) : (Observable.emitQueue onChanged o).1.queue = [] := by
  unfold Observable.emitQueue
  split
  · simp [*]
  · split
    · simp
    · simp

lemma emitQueue_events (onChanged : List Change → List Change)
    (o : Observable) :
    (Observable.emitQueue onChanged o).2.map EmitResult.event
      = (if o.queue = [] then [] else [o.queue]) := by
  unfold Observable.emitQueue
  split
  · simp [*]
  · split
    · simp [*, Observable.consolidate]
    · simp [*, Observable.consolidate]

lemma updateValues_replicate_undef (n : Nat) :
    updateValues (List.replicate n (some JSVal.undef)) (List.replicate n JSVal.undef)
      = (List.replicate n JSVal.undef, false) := by
  induction n with
  | zero => rfl
  | succ n ih => simp [List.replicate, updateValues, ih]

/-! Theorems for the claims. -/

/-- C9: writing to an Observable a value that is equal, under the
configured equality predicate, to the current value of the property is a
no-op: the observable is unchanged (nothing enqueued), the pre-commit
`"change"` dispatch never happens (the result does not depend on the
listeners at all, hence the quantification over `precommit`), and `set`
returns success. -/
theorem c9_idempotent_noop (precommit : Change → Bool) (o : Observable)
    (property : String) (value : JSVal) (source : Source)
    (heq : o.same (lookupJS o.target property) value = true) :
    Observable.set precommit o property value source = (o, true) := by
  unfold Observable.set
  simp [heq]

/-- Witness for C9: re-writing the stored value 1 with an
always-cancelling listener installed still succeeds without consulting
the listener. -/
theorem c9_idempotent_noop_witness :
    Observable.set (fun _ => false) (Observable.start [("p", JSVal.num 1)])
        "p" (JSVal.num 1) Source.valuesProxy
      = (Observable.start [("p", JSVal.num 1)], true) :=
  c9_idempotent_noop (fun _ => false) (Observable.start [("p", JSVal.num 1)])
    "p" (JSVal.num 1) Source.valuesProxy (by decide)

/-- C6: when a `"change"` listener cancels the pre-commit event for a
write of a genuinely different value, `set` returns failure and the
observable is left exactly as it was: the backing value is unchanged
(so every later read in the tick sees the old value) and no Change was
enqueued. -/
theorem c6_cancel_rejects (precommit : Change → Bool) (o : Observable)
    (property : String) (value : JSVal) (source : Source)
    (hdiff : o.same (lookupJS o.target property) value = false)
    (hcancel : precommit ⟨property, lookupJS o.target property, value, false, source⟩ = false) :
    Observable.set precommit o property value source = (o, false) := by
  unfold Observable.set Observable.enqueue
  simp [hdiff, hcancel]

/-- Witness for C6: cancelling the write of 2 over 1 leaves the
observable untouched and reports failure. -/
theorem c6_cancel_rejects_witness :
    Observable.set (fun _ => false) (Observable.start [("p", JSVal.num 1)])
        "p" (JSVal.num 2) Source.valuesProxy
      = (Observable.start [("p", JSVal.num 1)], false) :=
  c6_cancel_rejects (fun _ => false) (Observable.start [("p", JSVal.num 1)])
    "p" (JSVal.num 2) Source.valuesProxy (by decide) (by decide)

/-- C2: in the scenario `sum = State.compute((a, b) => a + b)(x, y)` with
`x = State.value(2)` and `y = State.value(3)`: the first read yields 5
with exactly one compute invocation; redundant reads while clean change
nothing (in particular the compute function is not invoked again); after
`x.value = 10` the state is dirty and the next read yields 13 with
exactly the second invocation; further reads again change nothing.  So
the compute function runs exactly once per distinct dirty-to-clean
transition and never on reads while clean. -/
theorem c2_lazy_computed_scenario :
    readSumValue sumStart = JSVal.num 5 ∧
    (runSum sumStart [SumOp.readSum]).sum.fnCount = 1 ∧
    (runSum sumStart [SumOp.readSum]).sum.tag = StateTag.clean ∧
    runSum sumStart [SumOp.readSum, SumOp.readSum, SumOp.readSum]
      = runSum sumStart [SumOp.readSum] ∧
    (runSum sumStart [SumOp.readSum, SumOp.writeX (JSVal.num 10)]).sum.tag
      = StateTag.dirty ∧
    readSumValue (runSum sumStart [SumOp.readSum, SumOp.writeX (JSVal.num 10)])
      = JSVal.num 13 ∧
    (runSum sumStart [SumOp.readSum, SumOp.writeX (JSVal.num 10), SumOp.readSum]).sum.fnCount
      = 2 ∧
    runSum sumStart
        [SumOp.readSum, SumOp.writeX (JSVal.num 10), SumOp.readSum, SumOp.readSum]
      = runSum sumStart [SumOp.readSum, SumOp.writeX (JSVal.num 10), SumOp.readSum] := by
  decide

/-- C3: the first `when("p")` call returns the fresh promise (id 0), but
a second call before resolution returns `undefined` — the source looks
up `cached[0]` on the stored object `{promise, callback}`, which has no
key `"0"` — not the identical pending promise.  Moreover the flush
resolves the promise with the raw `to` value of the last change (here
the value 5), not with the Change record, and removes the entry so it
can resolve only once. -/
theorem c3_when_memoization_bug :
    (Observable.when (Observable.start [("p", JSVal.num 1)]) "p").2 = some 0 ∧
    (Observable.when
        (Observable.when (Observable.start [("p", JSVal.num 1)]) "p").1 "p").2
      = none ∧
    ((runTick (fun _ => true) (fun _ => [])
        (Observable.when (Observable.start [("p", JSVal.num 1)]) "p").1
        [⟨"p", JSVal.num 5, Source.valuesProxy⟩]).2.map EmitResult.resolved)
      = [[("p", JSVal.num 5)]] ∧
    (runTick (fun _ => true) (fun _ => [])
        (Observable.when (Observable.start [("p", JSVal.num 1)]) "p").1
        [⟨"p", JSVal.num 5, Source.valuesProxy⟩]).1.promises
      = [] := by
  decide

/-- C4 counterexample: for the two changes `p: 1 → 2` and `p: 2 → 3` in
one batch, the per-property view (`changesByProperty`) keeps both records
for `p`; it is not the single merged record `from = 1, to = 3` the claim
describes, and no merging helper exists in the code. -/
theorem c4_no_merged_entry :
    (changesByProperty
        [⟨"p", JSVal.num 1, JSVal.num 2, false, Source.valuesProxy⟩,
         ⟨"p", JSVal.num 2, JSVal.num 3, false, Source.valuesProxy⟩]).lookup "p"
      = some [⟨JSVal.num 1, JSVal.num 2, false, Source.valuesProxy⟩,
              ⟨JSVal.num 2, JSVal.num 3, false, Source.valuesProxy⟩] ∧
    (changesByProperty
        [⟨"p", JSVal.num 1, JSVal.num 2, false, Source.valuesProxy⟩,
         ⟨"p", JSVal.num 2, JSVal.num 3, false, Source.valuesProxy⟩]).lookup "p"
      ≠ some [⟨JSVal.num 1, JSVal.num 3, false, Source.valuesProxy⟩] := by
  decide

/-- C4 amended: the default `consolidate` hook is the identity, and the
provided per-property view groups the entries for the same property in
batch order without merging them: for the writes `1 → 2` then `2 → 3`
to `p` in one tick, the group for `p` lists both records, the first with
`from = 1` and the last with `to = 3`. -/
theorem c4_consolidation_grouped :
    (∀ changes : List Change, Observable.consolidate changes = changes) ∧
    (changesByProperty
        [⟨"p", JSVal.num 1, JSVal.num 2, false, Source.valuesProxy⟩,
         ⟨"p", JSVal.num 2, JSVal.num 3, false, Source.valuesProxy⟩]).lookup "p"
      = some [⟨JSVal.num 1, JSVal.num 2, false, Source.valuesProxy⟩,
              ⟨JSVal.num 2, JSVal.num 3, false, Source.valuesProxy⟩] ∧
    ((changesByProperty
        [⟨"p", JSVal.num 1, JSVal.num 2, false, Source.valuesProxy⟩,
         ⟨"p", JSVal.num 2, JSVal.num 3, false, Source.valuesProxy⟩]).lookup "p").map
      (fun group => (group.head?.map ChangeView.from_, (group.getLast?).map ChangeView.to_))
      = some (some (JSVal.num 1), some (JSVal.num 3)) := by
  refine ⟨fun _ => rfl, by decide, by decide⟩

/-- C5 counterexample: in the round-trip tick the single consolidated
change carries the memoized PropertyState of `"p"` as its `source`, yet
the flush still notifies that very state — `emit` walks
`Object.entries(lastForStates)` and calls `notifyChange(this)` without
ever inspecting `change.source`, so the claimed "unless the change's
source is that very PropertyState" exemption does not exist. -/
theorem c5_notified_despite_own_source :
    (roundTripTick.2.map EmitResult.event)
      = [[⟨"p", JSVal.num 1, JSVal.num 5, false, Source.propState "p"⟩]] ∧
    (roundTripTick.2.map EmitResult.notified)
      = [[⟨"p", JSVal.num 5, Source.observableSrc⟩]] := by
  decide

/-- C5 amended: `o.property("p").value = 5` does commit 5 into the
backing store, and after the batched notification every consolidated
change whose property has a memoized PropertyState leads to exactly one
`notifyChange` on that state, unconditionally — regardless of the
change's source — but that notification always carries the observable
itself, never the PropertyState, as its `source` (and a PropertyState
stores no value of its own: reads delegate to the observable), so no
write-back loop arises. -/
theorem c5_roundtrip_notify_unconditional :
    lookupJS roundTripTick.1.target "p" = JSVal.num 5 ∧
    (roundTripTick.2.map EmitResult.notified)
      = [[⟨"p", JSVal.num 5, Source.observableSrc⟩]] ∧
    (∀ (onChanged : List Change → List Change) (o : Observable),
      ∀ r ∈ (Observable.emitQueue onChanged o).2,
        ∀ sn ∈ r.notified, sn.source = Source.observableSrc) := by
  refine ⟨by decide, by decide, ?_⟩
  intro onChanged o r hr sn hsn
  unfold Observable.emitQueue at hr
  split at hr
  · simp at hr
  · split at hr
    · simp only [List.mem_singleton] at hr
      subst hr
      simp at hsn
    · simp only [List.mem_singleton] at hr
      subst hr
      simp only [List.mem_map] at hsn
      obtain ⟨kv, _, hkv⟩ := hsn
      rw [← hkv]

/-- Witness for C5 (amended): the general no-PropertyState-source part
applied to the concrete round-trip flush. -/
theorem c5_roundtrip_notify_unconditional_witness :
    (StateNotification.mk "p" (JSVal.num 5) Source.observableSrc).source
      = Source.observableSrc :=
  c5_roundtrip_notify_unconditional.2.2 (fun _ => [])
    {Observable.start [("p", JSVal.num 5)] with
      queue := [⟨"p", JSVal.num 1, JSVal.num 5, false, Source.propState "p"⟩],
      states := ["p"]}
    ⟨[⟨"p", JSVal.num 1, JSVal.num 5, false, Source.propState "p"⟩],
     [⟨"p", JSVal.num 5, Source.observableSrc⟩], []⟩
    (by decide)
    ⟨"p", JSVal.num 5, Source.observableSrc⟩
    (by decide)

/-- C7 counterexample: a `"changed"` listener that synchronously
enqueues a new change during the flush dispatch loses that change: the
queue is wiped after dispatch (`queue.length = 0` runs after
`this.emit(queue)`), so the post-flush queue is empty instead of
retaining the listener's change — the queue is reset after listener
dispatch, not before. -/
theorem c7_reset_after_dispatch :
    (Observable.emitQueue (fun _ => [listenerChange]) flushVictim).1.queue = [] ∧
    (Observable.emitQueue (fun _ => [listenerChange]) flushVictim).1.queue
      ≠ [listenerChange] ∧
    (Observable.emitQueue (fun _ => [listenerChange]) flushVictim).2.map EmitResult.event
      = [[⟨"a", JSVal.undef, JSVal.num 1, false, Source.valuesProxy⟩]] := by
  decide

/-- C7 amended: the flush resets the queue after listener dispatch, not
before; whatever the listeners do, the queue is empty immediately after
a flush (so a change enqueued during dispatch is discarded), and the
single dispatched `ChangedEvent` carries exactly the pre-flush slice. -/
theorem c7_queue_empty_after_flush (onChanged : List Change → List Change)
    (o : Observable) :
    (Observable.emitQueue onChanged o).1.queue = [] ∧
    (Observable.emitQueue onChanged o).2.map EmitResult.event
      = (if o.queue = [] then [] else [o.queue]) :=
  ⟨emitQueue_queue_empty onChanged o, emitQueue_events onChanged o⟩

/-- C8 counterexample: with two plain `State` inputs reclaimed in the
same collection cycle, both abort listeners run after both weak refs
already fail to resolve, so each of the two `checkOrphaned` calls finds
every ref dead and dispatches `orphaned` — the event fires twice, not
exactly once on the transition, because `checkOrphaned` has no guard
against an already-orphaned state. -/
theorem c8_orphaned_fires_twice :
    admissibleGC 2 doubleOrphanTrace = true ∧
    (runGC ⟨[true, true], StateTag.dirty, 0⟩ doubleOrphanTrace).tag
      = StateTag.orphaned ∧
    (runGC ⟨[true, true], StateTag.dirty, 0⟩ doubleOrphanTrace).orphanedEvents
      = 2 := by
  decide

lemma admissibleGCFrom_fired_nil (rest : List GCEvent)
    (h : admissibleGCFrom 1 [0] [0] rest = true) : rest = [] := by
  cases rest with
  | nil => rfl
  | cons e rest =>
      exfalso
      cases e with
      | collect i =>
          simp only [admissibleGCFrom, Bool.and_eq_true, decide_eq_true_eq] at h
          obtain ⟨⟨hi, hne⟩, -⟩ := h
          have hzero : i = 0 := by omega
          subst hzero
          simp at hne
      | abortFired i =>
          simp only [admissibleGCFrom, Bool.and_eq_true] at h
          obtain ⟨⟨hcol, hnf⟩, -⟩ := h
          have hzero : i = 0 := by simpa using hcol
          subst hzero
          simp at hnf

lemma runGC_collected_sole (rest : List GCEvent)
    (h : admissibleGCFrom 1 [0] [] rest = true) :
    (runGC ⟨[false], StateTag.dirty, 0⟩ rest).orphanedEvents ≤ 1 ∧
    (GCEvent.abortFired 0 ∈ rest →
      (runGC ⟨[false], StateTag.dirty, 0⟩ rest).tag = StateTag.orphaned ∧
      (runGC ⟨[false], StateTag.dirty, 0⟩ rest).orphanedEvents = 1) := by
  cases rest with
  | nil => simp [runGC]
  | cons e rest =>
      cases e with
      | collect i =>
          exfalso
          simp only [admissibleGCFrom, Bool.and_eq_true, decide_eq_true_eq] at h
          obtain ⟨⟨hi, hne⟩, -⟩ := h
          have hzero : i = 0 := by omega
          subst hzero
          simp at hne
      | abortFired i =>
          simp only [admissibleGCFrom, Bool.and_eq_true] at h
          obtain ⟨⟨hcol, -⟩, hrest⟩ := h
          have hzero : i = 0 := by simpa using hcol
          subst hzero
          have hnil : rest = [] := admissibleGCFrom_fired_nil rest hrest
          subst hnil
          decide

/-- C8 amended: a ComputedState flips to orphaned exactly when an orphan
check finds that every upstream ref fails to resolve (a check that finds
a live ref changes nothing), and every such all-dead check dispatches one
`orphaned` event; for a ComputedState whose sole input State is collected
the event therefore fires exactly once over any admissible host trace —
but the dispatch is not guarded by the transition, so several all-dead
checks (as with two inputs dead before their callbacks run) each fire. -/
theorem c8_sole_input_orphan (events : List GCEvent)
    (hadm : admissibleGC 1 events = true) :
    ((runGC ⟨[true], StateTag.dirty, 0⟩ events).orphanedEvents ≤ 1 ∧
     (GCEvent.abortFired 0 ∈ events →
       (runGC ⟨[true], StateTag.dirty, 0⟩ events).tag = StateTag.orphaned ∧
       (runGC ⟨[true], StateTag.dirty, 0⟩ events).orphanedEvents = 1)) ∧
    (∀ c : OrphanState,
      ((checkOrphaned c).2 = true ↔ c.inputs.any id = false) ∧
      ((checkOrphaned c).2 = true →
        (checkOrphaned c).1.tag = StateTag.orphaned ∧
        (checkOrphaned c).1.orphanedEvents = c.orphanedEvents + 1) ∧
      ((checkOrphaned c).2 = false → (checkOrphaned c).1 = c)) := by
  constructor
  · unfold admissibleGC at hadm
    cases events with
    | nil => simp [runGC]
    | cons e rest =>
        cases e with
        | collect i =>
            simp only [admissibleGCFrom, Bool.and_eq_true, decide_eq_true_eq] at hadm
            obtain ⟨⟨hi, -⟩, hrest⟩ := hadm
            have hzero : i = 0 := by omega
            subst hzero
            have hb := runGC_collected_sole rest hrest
            simp only [runGC, List.foldl_cons, applyGCEvent] at hb ⊢
            simpa using hb
        | abortFired i =>
            exfalso
            simp only [admissibleGCFrom, Bool.and_eq_true] at hadm
            obtain ⟨⟨hcol, -⟩, -⟩ := hadm
            simp at hcol
  · intro c
    unfold checkOrphaned
    split
    · simp_all
    · simp_all

/-- Witness for C8 (amended): the sole input is collected and its abort
listener fires once; the state reports orphaned and dispatched exactly
one `orphaned` event. -/
theorem c8_sole_input_orphan_witness :
    admissibleGC 1 [GCEvent.collect 0, GCEvent.abortFired 0] = true ∧
    (runGC ⟨[true], StateTag.dirty, 0⟩
        [GCEvent.collect 0, GCEvent.abortFired 0]).tag = StateTag.orphaned ∧
    (runGC ⟨[true], StateTag.dirty, 0⟩
        [GCEvent.collect 0, GCEvent.abortFired 0]).orphanedEvents = 1 :=
  ⟨by decide,
   ((c8_sole_input_orphan [GCEvent.collect 0, GCEvent.abortFired 0]
      (by decide)).1.2 (by decide)).1,
   ((c8_sole_input_orphan [GCEvent.collect 0, GCEvent.abortFired 0]
      (by decide)).1.2 (by decide)).2⟩

/-- C10: reading a ComputedState that is not clean while no still-alive
input differs from its cached last-seen value does not invoke the
compute function (the result is the same for every compute function,
the invocation count and stored value are untouched), yet transitions
the state to clean and returns the previously cached value; and on the
very first read with every input alive but `undefined`, the compute
function is never invoked, the read returns `undefined`, and the state
becomes clean. -/
theorem c10_clean_without_compute (fn : List JSVal → JSVal)
    (inputs : List (Option JSVal)) (c : ComputedState)
    (hnotclean : c.tag ≠ StateTag.clean)
    (hnochange : (updateValues inputs c.values).2 = false) :
    (ComputedState.value fn inputs c
      = ({c with values := (updateValues inputs c.values).1,
                 tag := StateTag.clean}, c.lastValue)) ∧
    (∀ (n : Nat) (g : List JSVal → JSVal),
      ComputedState.value g (List.replicate n (some JSVal.undef))
          (ComputedState.start n)
        = ({ComputedState.start n with tag := StateTag.clean}, JSVal.undef)) := by
  constructor
  · unfold ComputedState.value
    simp [hnotclean, hnochange]
  · intro n g
    unfold ComputedState.value ComputedState.start
    simp [updateValues_replicate_undef n]

/-- Witness for C10: a dirty sum state whose first input was collected
and whose second input still holds the cached 3 returns the cached 5
without invoking the compute function and becomes clean. -/
theorem c10_clean_without_compute_witness :
    ((⟨[JSVal.num 2, JSVal.num 3], JSVal.num 5, StateTag.dirty, 1⟩ : ComputedState).tag
        ≠ StateTag.clean) ∧
    (updateValues [none, some (JSVal.num 3)] [JSVal.num 2, JSVal.num 3]).2 = false ∧
    ComputedState.value sumFn [none, some (JSVal.num 3)]
        ⟨[JSVal.num 2, JSVal.num 3], JSVal.num 5, StateTag.dirty, 1⟩
      = (⟨[JSVal.num 2, JSVal.num 3], JSVal.num 5, StateTag.clean, 1⟩, JSVal.num 5) :=
  ⟨by decide, by decide,
    ((c10_clean_without_compute sumFn [none, some (JSVal.num 3)]
        ⟨[JSVal.num 2, JSVal.num 3], JSVal.num 5, StateTag.dirty, 1⟩
        (by decide) (by decide)).1).trans (by decide)⟩

lemma runWrites_batch (precommit : Change → Bool) :
    ∀ (ws : List WriteOp) (o : Observable),
      List.Pairwise (fun a b => a.property ≠ b.property) ws →
      (∀ w ∈ ws, o.same (lookupJS o.target w.property) w.value = false) →
      (∀ w ∈ ws, precommit (writeChange o w) = true) →
      runWrites precommit o ws =
        {o with target := ws.foldl (fun t w => storeJS t w.property w.value) o.target,
                queue := o.queue ++ ws.map (writeChange o),
                microTaskQueued := o.microTaskQueued || !ws.isEmpty} := by
  intro ws
  induction ws with
  | nil =>
      intro o _ _ _
      simp [runWrites]
  | cons w ws ih =>
      intro o hpw hch hacc
      obtain ⟨hhead, htail⟩ := List.pairwise_cons.mp hpw
      have hw : o.same (lookupJS o.target w.property) w.value = false :=
        hch w (List.mem_cons_self w ws)
      have ha : precommit (writeChange o w) = true :=
        hacc w (List.mem_cons_self w ws)
      have hset : (Observable.set precommit o w.property w.value w.source).1
          = {o with microTaskQueued := true,
                    queue := o.queue ++ [writeChange o w],
                    target := storeJS o.target w.property w.value} := by
        unfold Observable.set Observable.enqueue
        simp only [hw, Bool.false_eq_true, if_false]
        rw [show (⟨w.property, lookupJS o.target w.property, w.value, false, w.source⟩ : Change)
              = writeChange o w from rfl, ha]
        simp
      have hlook : ∀ v ∈ ws,
          lookupJS (storeJS o.target w.property w.value) v.property
            = lookupJS o.target v.property := by
        intro v hv
        exact lookupJS_storeJS_ne o.target w.property v.property w.value
          (Ne.symm (hhead v hv))
      have hwc : ∀ v ∈ ws,
          writeChange {o with microTaskQueued := true,
                              queue := o.queue ++ [writeChange o w],
                              target := storeJS o.target w.property w.value} v
            = writeChange o v := by
        intro v hv
        unfold writeChange
        simp [hlook v hv]
      have hih := ih {o with microTaskQueued := true,
                             queue := o.queue ++ [writeChange o w],
                             target := storeJS o.target w.property w.value}
        htail
        (by
          intro v hv
          simpa [hlook v hv] using hch v (List.mem_cons_of_mem w hv))
        (by
          intro v hv
          rw [hwc v hv]
          exact hacc v (List.mem_cons_of_mem w hv))
      show runWrites precommit
          (Observable.set precommit o w.property w.value w.source).1 ws = _
      rw [hset, hih, List.map_congr_left hwc]
      simp [List.append_assoc]

/-- C1: for a tick of N synchronous writes to pairwise distinct
properties of one Observable — each writing a value that differs, under
the configured equality, from the stored one, with no pre-commit
listener cancelling — the tick dispatches exactly one `"changed"` event,
and that event carries exactly the N Change records of the writes in
write order (so listeners only ever see the fully applied batch). -/
theorem c1_batching (precommit : Change → Bool) (o : Observable)
    (ws : List WriteOp)
    (hq : o.queue = []) (hm : o.microTaskQueued = false) (hne : ws ≠ [])
    (hdistinct : List.Pairwise (fun a b => a.property ≠ b.property) ws)
    (hchanged : ∀ w ∈ ws, o.same (lookupJS o.target w.property) w.value = false)
    (haccepted : ∀ w ∈ ws, precommit (writeChange o w) = true) :
    (runTick precommit (fun _ => []) o ws).2.map EmitResult.event
      = [ws.map (writeChange o)] := by
  have hrw := runWrites_batch precommit ws o hdistinct hchanged haccepted
  have hisEmpty : ws.isEmpty = false := by
    cases ws with
    | nil => exact absurd rfl hne
    | cons a l => rfl
  have hmapne : ws.map (writeChange o) ≠ [] := by
    cases ws with
    | nil => exact absurd rfl hne
    | cons a l => simp
  unfold runTick
  rw [hrw]
  simp only [hm, hisEmpty, Bool.not_false, Bool.or_true, if_true]
  rw [emitQueue_events]
  simp [hq, hmapne]

/-- Witness for C1: two accepted writes to the distinct properties `a`
and `b` of a fresh observable yield one event with exactly the two
change records in write order. -/
theorem c1_batching_witness :
    (runTick (fun _ => true) (fun _ => []) (Observable.start [])
        [⟨"a", JSVal.num 1, Source.valuesProxy⟩,
         ⟨"b", JSVal.num 2, Source.valuesProxy⟩]).2.map EmitResult.event
      = [[writeChange (Observable.start []) ⟨"a", JSVal.num 1, Source.valuesProxy⟩,
          writeChange (Observable.start []) ⟨"b", JSVal.num 2, Source.valuesProxy⟩]] :=
  c1_batching (fun _ => true) (Observable.start [])
    [⟨"a", JSVal.num 1, Source.valuesProxy⟩,
     ⟨"b", JSVal.num 2, Source.valuesProxy⟩]
    rfl rfl (by decide) (by decide) (by decide) (by decide)

end Nyooom
